import Mathlib

/-!
Verification of the aggregation engine of epack-collector-github.

The development shallowly embeds the collector package: the glob pattern
matcher (MatchesPattern, ShouldIncludeRepo), the metrics aggregator
(processRepository, countBranchProtection, countSecuritySettings,
securityFeaturesCoverage, toBranchProtectionRules, toSecurityFeatures),
the posture calculator (percent, populatePosture) and the collection
orchestrator (Collect, fetchSecuritySettings).

Go machine integers are embedded as `Int` where the code divides (Go `/`
on int truncates toward zero, which is `Int.tdiv`), and as `Nat` for the
aggregator counters, which the code only ever increments starting from
zero. Fallible fetches are embedded as `Option` results (`none` = the
fetch failed).
-/

namespace EpackCollector

/-- Pattern constant from constants.go. -/
def DefaultIncludePattern : String := "*"

/-- Security features count from constants.go. -/
def NumSecurityFeatures : Int := 5

/-- Percentage constant from constants.go. -/
def MaxPercentage : Int := 100

/-- The percent function from collector.go: returns 0 when total is 0,
otherwise count * 100 / total with Go integer division, which truncates
toward zero (Int.tdiv). -/
def percent (count total : Int) : Int :=
  if total = 0 then 0 else Int.tdiv (count * MaxPercentage) total

/-! ### Pattern matcher (MatchesPattern from the collector package)

The Go code compiles the glob pattern into an anchored regular
expression: each rune of the pattern becomes one regex atom, where a
star becomes ".*", a question mark becomes ".", and every other rune
(regex metacharacters being escaped first) becomes a literal for
exactly itself. In RE2 the s flag is off by default, so the dot — and
hence ".*" — never matches a newline, while a literal newline in the
pattern still matches a newline in the name. The atom list below is
that compiled expression; globMatch runs it anchored against the whole
name, exactly as regexp.MatchString does on the caret-anchored,
dollar-anchored pattern the code builds, including the dot-excludes-
newline behaviour. -/

/-- One atom of the compiled pattern. -/
inductive GlobAtom where
  | star : GlobAtom
  | qmark : GlobAtom
  | lit : Char → GlobAtom
deriving DecidableEq

/-- Compilation of the glob pattern in MatchesPattern: star and question
mark become wildcards, every other rune — escaped metacharacters
included — matches only itself. -/
def compileGlob (pattern : String) : List GlobAtom :=
  pattern.data.map fun c =>
    match c with
    | '*' => GlobAtom.star
    | '?' => GlobAtom.qmark
    | c => GlobAtom.lit c

/-- The suffixes of the input reachable by deleting a newline-free
prefix: exactly the ways RE2's ".*" (s flag off) can consume input. -/
def dropRuns : List Char → List (List Char)
  | [] => [[]]
  | c :: cs => (c :: cs) :: (if c = '\n' then [] else dropRuns cs)

/-- Anchored matching of the compiled pattern against the whole name,
as regexp.MatchString on the anchored expression built by
MatchesPattern: the whole input must be consumed; a star atom (".*")
consumes any run of non-newline characters (so the rest of the pattern
must match some suffix reachable by deleting a newline-free prefix), a
question-mark atom (".") consumes exactly one non-newline character,
a literal atom consumes exactly its character. -/
def globMatch : List GlobAtom → List Char → Bool
  | [], cs => cs.isEmpty
  | GlobAtom.star :: ps, cs => (dropRuns cs).any fun s => globMatch ps s
  | GlobAtom.qmark :: ps, cs =>
      match cs with
      | [] => false
      | c :: cs => c != '\n' && globMatch ps cs
  | GlobAtom.lit a :: ps, cs =>
      match cs with
      | [] => false
      | c :: cs => a == c && globMatch ps cs

/-- MatchesPattern from the collector package: the star pattern
short-circuits to true, every other pattern is compiled and run
anchored against the whole name. -/
def MatchesPattern (name pattern : String) : Bool :=
  if pattern = "*" then true
  else globMatch (compileGlob pattern) name.data

/-- ShouldIncludeRepo from the collector package: any exclude-pattern
match refuses the repository outright; otherwise the repository is
included iff some include pattern matches. -/
def ShouldIncludeRepo (repoName : String)
    (includePatterns excludePatterns : List String) : Bool :=
  if excludePatterns.any fun p => MatchesPattern repoName p then false
  else includePatterns.any fun p => MatchesPattern repoName p

/-- Declarative semantics of a compiled pattern: the atom list matches
the whole character list, a star atom matching any run of non-newline
characters, a question-mark atom exactly one non-newline character
(RE2's dot with the s flag off), and a literal atom only its own
character, a literal newline included. Matching consumes the entire
input, so partial matches are not derivable. -/
inductive GlobSem : List GlobAtom → List Char → Prop where
  | nil : GlobSem [] []
  | lit {ps : List GlobAtom} {cs : List Char} {c : Char} :
      GlobSem ps cs → GlobSem (GlobAtom.lit c :: ps) (c :: cs)
  | qmark {ps : List GlobAtom} {cs : List Char} (c : Char) :
      c ≠ '\n' → GlobSem ps cs → GlobSem (GlobAtom.qmark :: ps) (c :: cs)
  | star {ps : List GlobAtom} {cs : List Char} (run : List Char) :
      (∀ c ∈ run, c ≠ '\n') → GlobSem ps cs →
      GlobSem (GlobAtom.star :: ps) (run ++ cs)

/-! ### Data model (queries.go and the collector package types)

Counters are embedded as Nat: the Go code only ever increments them
starting from zero, so they never leave the nonnegative range of the Go
int they are stored in. The collected-at timestamp of OrgPosture is
environment input with no bearing on any computed field and is left out
of the embedding. -/

/-- BranchProtectionRule from queries.go. -/
structure BranchProtectionRule where
  requiresApprovingReviews : Bool
  requiredApprovingReviewCount : Int
  dismissesStaleReviews : Bool
  requiresCodeOwnerReviews : Bool
  requiresStatusChecks : Bool
  requiresCommitSignatures : Bool
  isAdminEnforced : Bool
deriving DecidableEq

/-- DefaultBranchRef field of Repository from queries.go. -/
structure DefaultBranchRef where
  name : String
  branchProtectionRule : Option BranchProtectionRule
deriving DecidableEq

/-- Repository from queries.go; ownerLogin embeds Owner.Login. -/
structure Repository where
  name : String
  ownerLogin : String
  visibility : String
  defaultBranchRef : DefaultBranchRef
  hasVulnerabilityAlertsEnabled : Bool
deriving DecidableEq

/-- SecuritySettings from the github package. -/
structure SecuritySettings where
  secretScanning : Bool
  secretScanningPushProtection : Bool
  dependabotSecurityUpdates : Bool
  codeScanningEnabled : Bool
deriving DecidableEq

/-- OrgSecurity from the github package: the two-factor field is an
optional boolean, none meaning the value could not be observed. -/
structure OrgSecurity where
  twoFactorRequired : Option Bool
deriving DecidableEq

/-- repoInfo from the collector package. -/
structure RepoInfo where
  owner : String
  name : String
deriving DecidableEq

/-- metricsAggregator from the collector package; the zero value of the
Go struct is the default value here. -/
structure MetricsAggregator where
  totalRepos : Nat := 0
  excludedRepos : Nat := 0
  repos : List RepoInfo := []
  branchProtectionEnabled : Nat := 0
  requirePullRequest : Nat := 0
  requireApprovingReviews : Nat := 0
  dismissStaleReviews : Nat := 0
  requireCodeOwnerReviews : Nat := 0
  requireStatusChecks : Nat := 0
  requireSignedCommits : Nat := 0
  enforceAdmins : Nat := 0
  vulnerabilityAlertsEnabled : Nat := 0
  codeScanningEnabled : Nat := 0
  secretScanningEnabled : Nat := 0
  secretScanningPushProtection : Nat := 0
  dependabotSecurityUpdatesEnabled : Nat := 0
deriving DecidableEq

/-- countBranchProtection from the collector package: without a branch
protection ruleset nothing changes; with one, the overall counter and
each per-flag counter whose boolean is set are incremented, the
required-approving-reviews flag driving both the pull-request counter
and the approving-reviews counter. -/
def countBranchProtection (m : MetricsAggregator) (repo : Repository) :
    MetricsAggregator :=
  match repo.defaultBranchRef.branchProtectionRule with
  | none => m
  | some bp =>
    let m := { m with branchProtectionEnabled := m.branchProtectionEnabled + 1 }
    let m := if bp.requiresApprovingReviews then
        { m with requirePullRequest := m.requirePullRequest + 1,
                 requireApprovingReviews := m.requireApprovingReviews + 1 }
      else m
    let m := if bp.dismissesStaleReviews then
        { m with dismissStaleReviews := m.dismissStaleReviews + 1 } else m
    let m := if bp.requiresCodeOwnerReviews then
        { m with requireCodeOwnerReviews := m.requireCodeOwnerReviews + 1 } else m
    let m := if bp.requiresStatusChecks then
        { m with requireStatusChecks := m.requireStatusChecks + 1 } else m
    let m := if bp.requiresCommitSignatures then
        { m with requireSignedCommits := m.requireSignedCommits + 1 } else m
    if bp.isAdminEnforced then
        { m with enforceAdmins := m.enforceAdmins + 1 } else m

/-- processRepository from the collector package: a repository the scope
filter rejects only bumps the excluded counter; an accepted one bumps
the included counter, is recorded for the phase-two fetch, has its
branch protection counted, and bumps the vulnerability-alerts counter
when its flag is set. -/
def processRepository (m : MetricsAggregator) (repo : Repository)
    (includePatterns excludePatterns : List String) : MetricsAggregator :=
  if ¬ ShouldIncludeRepo repo.name includePatterns excludePatterns then
    { m with excludedRepos := m.excludedRepos + 1 }
  else
    let m := { m with totalRepos := m.totalRepos + 1,
                      repos := m.repos ++ [⟨repo.ownerLogin, repo.name⟩] }
    let m := countBranchProtection m repo
    if repo.hasVulnerabilityAlertsEnabled then
      { m with vulnerabilityAlertsEnabled := m.vulnerabilityAlertsEnabled + 1 }
    else m

/-- countSecuritySettings from the collector package: each of the four
settings-derived counters is incremented independently when its boolean
is set. -/
def countSecuritySettings (m : MetricsAggregator)
    (settings : SecuritySettings) : MetricsAggregator :=
  let m := if settings.codeScanningEnabled then
      { m with codeScanningEnabled := m.codeScanningEnabled + 1 } else m
  let m := if settings.secretScanning then
      { m with secretScanningEnabled := m.secretScanningEnabled + 1 } else m
  let m := if settings.secretScanningPushProtection then
      { m with secretScanningPushProtection := m.secretScanningPushProtection + 1 }
    else m
  if settings.dependabotSecurityUpdates then
      { m with dependabotSecurityUpdatesEnabled :=
          m.dependabotSecurityUpdatesEnabled + 1 }
  else m

/-- securityFeaturesCoverage from the collector package: 0 for an empty
scope, otherwise the sum of the five feature counters times 100, divided
once by includedCount * 5 with Go integer division. -/
def securityFeaturesCoverage (m : MetricsAggregator) : Int :=
  if m.totalRepos = 0 then 0
  else
    Int.tdiv
      (((m.vulnerabilityAlertsEnabled : Int) + (m.codeScanningEnabled : Int) +
          (m.secretScanningEnabled : Int) + (m.secretScanningPushProtection : Int) +
          (m.dependabotSecurityUpdatesEnabled : Int)) * MaxPercentage)
      ((m.totalRepos : Int) * NumSecurityFeatures)

/-- Scope section of the report from the collector package types. -/
structure Scope where
  includePatterns : List String
  excludePatterns : List String
  repositoriesCoverage : Int
deriving DecidableEq

/-- Posture section of the report from the collector package types. -/
structure Posture where
  branchProtectionCoverage : Int
  securityFeaturesCoverage : Int
deriving DecidableEq

/-- AccessControl section of the report: an optional boolean, none when
the two-factor requirement could not be observed. -/
structure AccessControl where
  twoFactorRequired : Option Bool
deriving DecidableEq

/-- BranchProtectionRules section of the report. -/
structure BranchProtectionRules where
  pullRequestRequired : Int
  approvingReviews : Int
  dismissStaleReviews : Int
  codeOwnerReviews : Int
  statusChecks : Int
  signedCommits : Int
  adminEnforcement : Int
deriving DecidableEq

/-- SecurityFeatures section of the report. -/
structure SecurityFeatures where
  vulnerabilityAlerts : Int
  codeScanning : Int
  secretScanning : Int
  secretScanningPushProtection : Int
  dependabotSecurityUpdates : Int
deriving DecidableEq

/-- OrgPosture from the collector package types, timestamp omitted. -/
structure OrgPosture where
  schemaVersion : String
  organization : String
  scope : Scope
  posture : Posture
  accessControl : AccessControl
  branchProtectionRules : BranchProtectionRules
  securityFeatures : SecurityFeatures
deriving DecidableEq

/-- toBranchProtectionRules from the collector package: every per-rule
percentage is relative to the included count. -/
def toBranchProtectionRules (m : MetricsAggregator) : BranchProtectionRules where
  pullRequestRequired := percent m.requirePullRequest m.totalRepos
  approvingReviews := percent m.requireApprovingReviews m.totalRepos
  dismissStaleReviews := percent m.dismissStaleReviews m.totalRepos
  codeOwnerReviews := percent m.requireCodeOwnerReviews m.totalRepos
  statusChecks := percent m.requireStatusChecks m.totalRepos
  signedCommits := percent m.requireSignedCommits m.totalRepos
  adminEnforcement := percent m.enforceAdmins m.totalRepos

/-- toSecurityFeatures from the collector package: every per-feature
percentage is relative to the included count. -/
def toSecurityFeatures (m : MetricsAggregator) : SecurityFeatures where
  vulnerabilityAlerts := percent m.vulnerabilityAlertsEnabled m.totalRepos
  codeScanning := percent m.codeScanningEnabled m.totalRepos
  secretScanning := percent m.secretScanningEnabled m.totalRepos
  secretScanningPushProtection := percent m.secretScanningPushProtection m.totalRepos
  dependabotSecurityUpdates := percent m.dependabotSecurityUpdatesEnabled m.totalRepos

/-- populatePosture from collector.go: fills every report section from
the aggregator and the org security result; the two-factor field is
copied through unchanged. -/
def populatePosture (organization : String) (orgSecurity : OrgSecurity)
    (m : MetricsAggregator) (includePatterns excludePatterns : List String) :
    OrgPosture where
  schemaVersion := "1.0.0"
  organization := organization
  scope :=
    { includePatterns := includePatterns
      excludePatterns := excludePatterns
      repositoriesCoverage := percent m.totalRepos (m.totalRepos + m.excludedRepos) }
  posture :=
    { branchProtectionCoverage := percent m.branchProtectionEnabled m.totalRepos
      securityFeaturesCoverage := securityFeaturesCoverage m }
  accessControl := { twoFactorRequired := orgSecurity.twoFactorRequired }
  branchProtectionRules := toBranchProtectionRules m
  securityFeatures := toSecurityFeatures m

/-- The phase-two fold of Collect: processRepository applied to every
repository of every page, in arrival order. -/
def processPages (pages : List (List Repository))
    (includePatterns excludePatterns : List String) : MetricsAggregator :=
  pages.foldl
    (fun m page =>
      page.foldl (fun m r => processRepository m r includePatterns excludePatterns) m)
    {}

/-- fetchSecuritySettings from collector.go: one settings fetch per
recorded repository, in order; a failed fetch is skipped, a successful
one is folded in with countSecuritySettings. -/
def fetchSecuritySettings (fetch : RepoInfo → Option SecuritySettings)
    (m : MetricsAggregator) : MetricsAggregator :=
  m.repos.foldl
    (fun acc repo =>
      match fetch repo with
      | none => acc
      | some settings => countSecuritySettings acc settings)
    m

/-- Collect from collector.go, the three fetches abstracted as oracle
inputs (none = the fetch failed): an empty organization is refused, an
empty include-pattern list is replaced by the default wildcard, a
failure of the org-security or repository-enumeration fetch aborts with
no report, and otherwise the two aggregation phases run and the report
is built by populatePosture. -/
def Collect (organization : String)
    (includePatterns excludePatterns : List String)
    (fetchOrgSecurity : Option OrgSecurity)
    (fetchRepositories : Option (List (List Repository)))
    (fetchSettings : RepoInfo → Option SecuritySettings) : Option OrgPosture :=
  if organization = "" then none
  else
    let inc := if includePatterns = [] then [DefaultIncludePattern] else includePatterns
    match fetchOrgSecurity with
    | none => none
    | some orgSecurity =>
      match fetchRepositories with
      | none => none
      | some pages =>
        let metrics := processPages pages inc excludePatterns
        let metrics := fetchSecuritySettings fetchSettings metrics
        some (populatePosture organization orgSecurity metrics inc excludePatterns)

/-- Modelled from the spec for comparison with securityFeaturesCoverage:
the average of the five individually truncated per-feature percentages,
the computation the spec says the code must NOT perform. -/
def avgOfTruncatedFeaturePercents (m : MetricsAggregator) : Int :=
  Int.tdiv
    (percent m.vulnerabilityAlertsEnabled m.totalRepos +
      percent m.codeScanningEnabled m.totalRepos +
      percent m.secretScanningEnabled m.totalRepos +
      percent m.secretScanningPushProtection m.totalRepos +
      percent m.dependabotSecurityUpdatesEnabled m.totalRepos)
    NumSecurityFeatures

/-- Invariant maintained by the phase-two fold: the included count is
the length of the recorded identity list, every phase-two counter is at
most the included count, and the four settings-derived counters are
still zero. -/
def PhaseTwoInv (m : MetricsAggregator) : Prop :=
  m.totalRepos = m.repos.length ∧
  m.branchProtectionEnabled ≤ m.totalRepos ∧
  m.requirePullRequest ≤ m.totalRepos ∧
  m.requireApprovingReviews ≤ m.totalRepos ∧
  m.dismissStaleReviews ≤ m.totalRepos ∧
  m.requireCodeOwnerReviews ≤ m.totalRepos ∧
  m.requireStatusChecks ≤ m.totalRepos ∧
  m.requireSignedCommits ≤ m.totalRepos ∧
  m.enforceAdmins ≤ m.totalRepos ∧
  m.vulnerabilityAlertsEnabled ≤ m.totalRepos ∧
  m.codeScanningEnabled = 0 ∧
  m.secretScanningEnabled = 0 ∧
  m.secretScanningPushProtection = 0 ∧
  m.dependabotSecurityUpdatesEnabled = 0

theorem mem_dropRuns {cs s : List Char} :
    s ∈ dropRuns cs ↔ ∃ run, (∀ c ∈ run, c ≠ '\n') ∧ run ++ s = cs := by
  induction cs generalizing s with
  | nil =>
    constructor
    · intro hs
      simp only [dropRuns, List.mem_singleton] at hs
      subst hs
      exact ⟨[], by simp, rfl⟩
    · rintro ⟨run, hnn, heq⟩
      rcases List.append_eq_nil.mp heq with ⟨rfl, rfl⟩
      simp [dropRuns]
  | cons c cs ih =>
    constructor
    · intro hs
      simp only [dropRuns, List.mem_cons] at hs
      rcases hs with rfl | hs
      · exact ⟨[], by simp, rfl⟩
      · by_cases hc : c = '\n'
        · rw [if_pos hc] at hs
          simp at hs
        · rw [if_neg hc] at hs
          obtain ⟨run, hnn, rfl⟩ := ih.mp hs
          refine ⟨c :: run, ?_, rfl⟩
          intro x hx
          rcases List.mem_cons.mp hx with rfl | hx
          · exact hc
          · exact hnn x hx
    · rintro ⟨run, hnn, heq⟩
      cases run with
      | nil =>
        simp only [List.nil_append] at heq
        subst heq
        simp [dropRuns]
      | cons r rs =>
        simp only [List.cons_append, List.cons.injEq] at heq
        obtain ⟨rfl, heq⟩ := heq
        have hr : r ≠ '\n' := hnn r (List.mem_cons_self r rs)
        simp only [dropRuns, List.mem_cons]
        right
        rw [if_neg hr]
        exact ih.mpr ⟨rs, fun x hx => hnn x (List.mem_cons_of_mem r hx), heq⟩

theorem globMatch_sound {ps : List GlobAtom} {cs : List Char}
    (h : globMatch ps cs = true) : GlobSem ps cs := by
  induction ps generalizing cs with
  | nil =>
    simp only [globMatch, List.isEmpty_iff] at h
    subst h
    exact GlobSem.nil
  | cons a ps ih =>
    cases a with
    | star =>
      simp only [globMatch, List.any_eq_true] at h
      obtain ⟨s, hs, hmatch⟩ := h
      obtain ⟨run, hnn, rfl⟩ := mem_dropRuns.mp hs
      exact GlobSem.star run hnn (ih hmatch)
    | qmark =>
      cases cs with
      | nil => simp [globMatch] at h
      | cons c cs =>
        simp only [globMatch, Bool.and_eq_true, bne_iff_ne, ne_eq] at h
        obtain ⟨h1, h2⟩ := h
        exact GlobSem.qmark c h1 (ih h2)
    | lit a =>
      cases cs with
      | nil => simp [globMatch] at h
      | cons c cs =>
        simp only [globMatch, Bool.and_eq_true, beq_iff_eq] at h
        obtain ⟨rfl, hm⟩ := h
        exact GlobSem.lit (ih hm)

theorem globMatch_complete {ps : List GlobAtom} {cs : List Char}
    (h : GlobSem ps cs) : globMatch ps cs = true := by
  induction h with
  | nil => rfl
  | lit _ ih => simp [globMatch, ih]
  | qmark c hne _ ih => simp [globMatch, hne, ih]
  | star run hnn h ih =>
    simp only [globMatch, List.any_eq_true]
    exact ⟨_, mem_dropRuns.mpr ⟨run, hnn, rfl⟩, ih⟩

theorem globMatch_iff (ps : List GlobAtom) (cs : List Char) :
    globMatch ps cs = true ↔ GlobSem ps cs :=
  ⟨globMatch_sound, globMatch_complete⟩

/-- C7 counterexample: the question-mark wildcard does not match every
single character — the code compiles it to the RE2 dot, whose s flag is
off, so a name consisting of one newline character is rejected by the
one-character pattern, where the claim as stated requires a match. -/
theorem MatchesPattern_newline_counterexample :
    ¬ (MatchesPattern "\n" "?" = true) := by decide

/-- C7 amended: MatchesPattern applied to the star pattern is always
true without compiling anything; every other pattern is decided by the
anchored whole-name glob match of the compiled pattern, in which a star
matches any run of non-newline characters, a question mark exactly one
non-newline character (the compiled RE2 dot never matches a newline),
and every other character — a literal newline included — only itself;
substring matches are rejected because the semantics consumes the whole
name. -/
theorem MatchesPattern_spec (name pattern : String) :
    MatchesPattern name "*" = true ∧
    (pattern ≠ "*" →
      (MatchesPattern name pattern = true ↔
        GlobSem (compileGlob pattern) name.data)) := by
  refine ⟨rfl, fun hp => ?_⟩
  rw [MatchesPattern, if_neg hp]
  exact globMatch_iff _ _

/-- Closed instantiation of MatchesPattern_spec at a non-star pattern. -/
theorem MatchesPattern_spec_witness :
    MatchesPattern "my-repo" "my-*" = true ↔
      GlobSem (compileGlob "my-*") (String.data "my-repo") :=
  (MatchesPattern_spec "my-repo" "my-*").2 (by decide)

/-- C6: ShouldIncludeRepo returns false whenever some exclude pattern
matches the name, regardless of include patterns; when no exclude pattern
matches, it returns true exactly when some include pattern matches; and
with an empty include-pattern list it returns false for every name. -/
theorem ShouldIncludeRepo_spec (name : String)
    (includePatterns excludePatterns : List String) :
    ((∃ p ∈ excludePatterns, MatchesPattern name p = true) →
        ShouldIncludeRepo name includePatterns excludePatterns = false) ∧
    ((∀ p ∈ excludePatterns, MatchesPattern name p = false) →
        (ShouldIncludeRepo name includePatterns excludePatterns = true ↔
          ∃ p ∈ includePatterns, MatchesPattern name p = true)) ∧
    ShouldIncludeRepo name [] excludePatterns = false := by
  refine ⟨?_, ?_, ?_⟩
  · rintro ⟨p, hp, hm⟩
    have hany : (excludePatterns.any fun q => MatchesPattern name q) = true :=
      List.any_eq_true.mpr ⟨p, hp, hm⟩
    simp [ShouldIncludeRepo, hany]
  · intro h
    have hany : (excludePatterns.any fun q => MatchesPattern name q) = false := by
      rw [List.any_eq_false]
      intro p hp
      simp [h p hp]
    simp [ShouldIncludeRepo, hany, List.any_eq_true]
  · simp [ShouldIncludeRepo]

/-- Closed instantiation of ShouldIncludeRepo_spec: the archive exclusion
wins over the universal include pattern. -/
theorem ShouldIncludeRepo_spec_witness :
    ShouldIncludeRepo "repo-archive" ["*"] ["*-archive"] = false :=
  (ShouldIncludeRepo_spec "repo-archive" ["*"] ["*-archive"]).1
    ⟨"*-archive", by decide, by decide⟩

/-- C4: percent of anything over zero is 0; for positive total it is the
truncating integer division of count * 100 by total, which for
nonnegative count coincides with the floor division; and it takes the
concrete values the spec lists. -/
theorem percent_spec (count total : Int) :
    percent count 0 = 0 ∧
    (0 < total → percent count total = Int.tdiv (count * 100) total) ∧
    (0 < total → 0 ≤ count → percent count total = Int.fdiv (count * 100) total) ∧
    (0 < total → percent 0 total = 0) ∧
    (0 < total → percent total total = 100) ∧
    percent 1 3 = 33 ∧ percent 2 3 = 66 := by
  refine ⟨by simp [percent], ?_, ?_, ?_, ?_, by decide, by decide⟩
  · intro ht
    rw [percent, if_neg (by omega)]
    rfl
  · intro ht hc
    rw [percent, if_neg (by omega), MaxPercentage]
    rw [Int.tdiv_eq_ediv (by positivity) (le_of_lt ht),
      Int.fdiv_eq_ediv _ (le_of_lt ht)]
  · intro ht
    rw [percent, if_neg (by omega), MaxPercentage]
    simp [Int.zero_tdiv]
  · intro ht
    rw [percent, if_neg (by omega), MaxPercentage, mul_comm]
    exact Int.mul_tdiv_cancel 100 (by omega)

/-- Closed instantiation of percent_spec at count 2, total 3. -/
theorem percent_spec_witness :
    percent 2 3 = Int.tdiv (2 * 100) 3 ∧ percent 3 3 = 100 :=
  ⟨(percent_spec 2 3).2.1 (by decide), (percent_spec 3 3).2.2.2.2.1 (by decide)⟩

/-- C9 counterexample: percent is not bounded by 100 for every pair of
integers — at count 2, total 1 it returns 200. -/
theorem percent_range_counterexample : ¬ (percent 2 1 ≤ 100) := by decide

/-- C9 amended: for 0 ≤ count ≤ total, percent returns an integer in the
range 0 to 100. -/
theorem percent_range (count total : Int) (h0 : 0 ≤ count) (h1 : count ≤ total) :
    0 ≤ percent count total ∧ percent count total ≤ 100 := by
  by_cases ht : total = 0
  · subst ht
    simp [percent]
  · have htpos : 0 < total := by omega
    rw [percent, if_neg ht, MaxPercentage,
      Int.tdiv_eq_ediv (by positivity) (le_of_lt htpos)]
    constructor
    · exact Int.ediv_nonneg (by positivity) (le_of_lt htpos)
    · calc count * 100 / total ≤ total * 100 / total :=
            Int.ediv_le_ediv htpos (by nlinarith)
        _ = 100 := by
            rw [mul_comm]
            exact Int.mul_ediv_cancel 100 ht

/-- Closed instantiation of percent_range at count 1, total 3. -/
theorem percent_range_witness : 0 ≤ percent 1 3 ∧ percent 1 3 ≤ 100 :=
  percent_range 1 3 (by decide) (by decide)

theorem countBranchProtection_eq (m : MetricsAggregator) (repo : Repository) :
    countBranchProtection m repo =
      match repo.defaultBranchRef.branchProtectionRule with
      | none => m
      | some bp =>
        { m with
          branchProtectionEnabled := m.branchProtectionEnabled + 1
          requirePullRequest :=
            m.requirePullRequest + (if bp.requiresApprovingReviews then 1 else 0)
          requireApprovingReviews :=
            m.requireApprovingReviews + (if bp.requiresApprovingReviews then 1 else 0)
          dismissStaleReviews :=
            m.dismissStaleReviews + (if bp.dismissesStaleReviews then 1 else 0)
          requireCodeOwnerReviews :=
            m.requireCodeOwnerReviews + (if bp.requiresCodeOwnerReviews then 1 else 0)
          requireStatusChecks :=
            m.requireStatusChecks + (if bp.requiresStatusChecks then 1 else 0)
          requireSignedCommits :=
            m.requireSignedCommits + (if bp.requiresCommitSignatures then 1 else 0)
          enforceAdmins :=
            m.enforceAdmins + (if bp.isAdminEnforced then 1 else 0) } := by
  rcases hbp : repo.defaultBranchRef.branchProtectionRule with _ | ⟨b1, n, b3, b4, b5, b6, b7⟩
  · simp [countBranchProtection, hbp]
  · cases b1 <;> cases b3 <;> cases b4 <;> cases b5 <;> cases b6 <;> cases b7 <;>
      simp [countBranchProtection, hbp]

theorem processRepository_excluded (m : MetricsAggregator) (repo : Repository)
    (includePatterns excludePatterns : List String)
    (h : ShouldIncludeRepo repo.name includePatterns excludePatterns = false) :
    processRepository m repo includePatterns excludePatterns =
      { m with excludedRepos := m.excludedRepos + 1 } := by
  simp [processRepository, h]

theorem processRepository_included (m : MetricsAggregator) (repo : Repository)
    (includePatterns excludePatterns : List String)
    (h : ShouldIncludeRepo repo.name includePatterns excludePatterns = true) :
    processRepository m repo includePatterns excludePatterns =
      (if repo.hasVulnerabilityAlertsEnabled then
        { countBranchProtection
            { m with totalRepos := m.totalRepos + 1,
                     repos := m.repos ++ [RepoInfo.mk repo.ownerLogin repo.name] }
            repo with
          vulnerabilityAlertsEnabled :=
            (countBranchProtection
              { m with totalRepos := m.totalRepos + 1,
                       repos := m.repos ++ [RepoInfo.mk repo.ownerLogin repo.name] }
              repo).vulnerabilityAlertsEnabled + 1 }
      else
        countBranchProtection
          { m with totalRepos := m.totalRepos + 1,
                   repos := m.repos ++ [RepoInfo.mk repo.ownerLogin repo.name] }
          repo) := by
  simp [processRepository, h]

theorem processRepository_deltas (m : MetricsAggregator) (repo : Repository)
    (includePatterns excludePatterns : List String)
    (h : ShouldIncludeRepo repo.name includePatterns excludePatterns = true) :
    (processRepository m repo includePatterns excludePatterns).excludedRepos =
        m.excludedRepos ∧
    (processRepository m repo includePatterns excludePatterns).totalRepos =
        m.totalRepos + 1 ∧
    (processRepository m repo includePatterns excludePatterns).repos =
        m.repos ++ [RepoInfo.mk repo.ownerLogin repo.name] ∧
    (processRepository m repo includePatterns excludePatterns).vulnerabilityAlertsEnabled =
        m.vulnerabilityAlertsEnabled +
          (if repo.hasVulnerabilityAlertsEnabled then 1 else 0) ∧
    (processRepository m repo includePatterns excludePatterns).codeScanningEnabled =
        m.codeScanningEnabled ∧
    (processRepository m repo includePatterns excludePatterns).secretScanningEnabled =
        m.secretScanningEnabled ∧
    (processRepository m repo includePatterns excludePatterns).secretScanningPushProtection =
        m.secretScanningPushProtection ∧
    (processRepository m repo includePatterns excludePatterns).dependabotSecurityUpdatesEnabled =
        m.dependabotSecurityUpdatesEnabled ∧
    (repo.defaultBranchRef.branchProtectionRule = none →
      (processRepository m repo includePatterns excludePatterns).branchProtectionEnabled =
          m.branchProtectionEnabled ∧
      (processRepository m repo includePatterns excludePatterns).requirePullRequest =
          m.requirePullRequest ∧
      (processRepository m repo includePatterns excludePatterns).requireApprovingReviews =
          m.requireApprovingReviews ∧
      (processRepository m repo includePatterns excludePatterns).dismissStaleReviews =
          m.dismissStaleReviews ∧
      (processRepository m repo includePatterns excludePatterns).requireCodeOwnerReviews =
          m.requireCodeOwnerReviews ∧
      (processRepository m repo includePatterns excludePatterns).requireStatusChecks =
          m.requireStatusChecks ∧
      (processRepository m repo includePatterns excludePatterns).requireSignedCommits =
          m.requireSignedCommits ∧
      (processRepository m repo includePatterns excludePatterns).enforceAdmins =
          m.enforceAdmins) ∧
    (∀ bp, repo.defaultBranchRef.branchProtectionRule = some bp →
      (processRepository m repo includePatterns excludePatterns).branchProtectionEnabled =
          m.branchProtectionEnabled + 1 ∧
      (processRepository m repo includePatterns excludePatterns).requirePullRequest =
          m.requirePullRequest + (if bp.requiresApprovingReviews then 1 else 0) ∧
      (processRepository m repo includePatterns excludePatterns).requireApprovingReviews =
          m.requireApprovingReviews + (if bp.requiresApprovingReviews then 1 else 0) ∧
      (processRepository m repo includePatterns excludePatterns).dismissStaleReviews =
          m.dismissStaleReviews + (if bp.dismissesStaleReviews then 1 else 0) ∧
      (processRepository m repo includePatterns excludePatterns).requireCodeOwnerReviews =
          m.requireCodeOwnerReviews + (if bp.requiresCodeOwnerReviews then 1 else 0) ∧
      (processRepository m repo includePatterns excludePatterns).requireStatusChecks =
          m.requireStatusChecks + (if bp.requiresStatusChecks then 1 else 0) ∧
      (processRepository m repo includePatterns excludePatterns).requireSignedCommits =
          m.requireSignedCommits + (if bp.requiresCommitSignatures then 1 else 0) ∧
      (processRepository m repo includePatterns excludePatterns).enforceAdmins =
          m.enforceAdmins + (if bp.isAdminEnforced then 1 else 0)) := by
  rw [processRepository_included m repo includePatterns excludePatterns h,
    countBranchProtection_eq]
  rcases hbp : repo.defaultBranchRef.branchProtectionRule with _ | bp <;>
    cases hv : repo.hasVulnerabilityAlertsEnabled <;> simp

/-- C1: a repository the scope filter rejects only increments the
excluded count; an accepted repository increments the included count,
appends its identity to the phase-two list, increments the
vulnerability-alerts counter iff its flag is set, leaves the four
settings-derived counters alone, and updates the branch-protection
counters exactly when a ruleset is present: the overall counter by one
and each per-flag counter by one iff its boolean is true, both
pull-request and approving-reviews counters being driven by the
required-approving-reviews flag. -/
theorem processRepository_spec (m : MetricsAggregator) (repo : Repository)
    (includePatterns excludePatterns : List String) :
    (ShouldIncludeRepo repo.name includePatterns excludePatterns = false →
      processRepository m repo includePatterns excludePatterns =
        { m with excludedRepos := m.excludedRepos + 1 }) ∧
    (ShouldIncludeRepo repo.name includePatterns excludePatterns = true →
      (processRepository m repo includePatterns excludePatterns).excludedRepos =
          m.excludedRepos ∧
      (processRepository m repo includePatterns excludePatterns).totalRepos =
          m.totalRepos + 1 ∧
      (processRepository m repo includePatterns excludePatterns).repos =
          m.repos ++ [RepoInfo.mk repo.ownerLogin repo.name] ∧
      (processRepository m repo includePatterns excludePatterns).vulnerabilityAlertsEnabled =
          m.vulnerabilityAlertsEnabled +
            (if repo.hasVulnerabilityAlertsEnabled then 1 else 0) ∧
      (processRepository m repo includePatterns excludePatterns).codeScanningEnabled =
          m.codeScanningEnabled ∧
      (processRepository m repo includePatterns excludePatterns).secretScanningEnabled =
          m.secretScanningEnabled ∧
      (processRepository m repo includePatterns excludePatterns).secretScanningPushProtection =
          m.secretScanningPushProtection ∧
      (processRepository m repo includePatterns excludePatterns).dependabotSecurityUpdatesEnabled =
          m.dependabotSecurityUpdatesEnabled ∧
      (repo.defaultBranchRef.branchProtectionRule = none →
        (processRepository m repo includePatterns excludePatterns).branchProtectionEnabled =
            m.branchProtectionEnabled ∧
        (processRepository m repo includePatterns excludePatterns).requirePullRequest =
            m.requirePullRequest ∧
        (processRepository m repo includePatterns excludePatterns).requireApprovingReviews =
            m.requireApprovingReviews ∧
        (processRepository m repo includePatterns excludePatterns).dismissStaleReviews =
            m.dismissStaleReviews ∧
        (processRepository m repo includePatterns excludePatterns).requireCodeOwnerReviews =
            m.requireCodeOwnerReviews ∧
        (processRepository m repo includePatterns excludePatterns).requireStatusChecks =
            m.requireStatusChecks ∧
        (processRepository m repo includePatterns excludePatterns).requireSignedCommits =
            m.requireSignedCommits ∧
        (processRepository m repo includePatterns excludePatterns).enforceAdmins =
            m.enforceAdmins) ∧
      (∀ bp, repo.defaultBranchRef.branchProtectionRule = some bp →
        (processRepository m repo includePatterns excludePatterns).branchProtectionEnabled =
            m.branchProtectionEnabled + 1 ∧
        (processRepository m repo includePatterns excludePatterns).requirePullRequest =
            m.requirePullRequest + (if bp.requiresApprovingReviews then 1 else 0) ∧
        (processRepository m repo includePatterns excludePatterns).requireApprovingReviews =
            m.requireApprovingReviews + (if bp.requiresApprovingReviews then 1 else 0) ∧
        (processRepository m repo includePatterns excludePatterns).dismissStaleReviews =
            m.dismissStaleReviews + (if bp.dismissesStaleReviews then 1 else 0) ∧
        (processRepository m repo includePatterns excludePatterns).requireCodeOwnerReviews =
            m.requireCodeOwnerReviews + (if bp.requiresCodeOwnerReviews then 1 else 0) ∧
        (processRepository m repo includePatterns excludePatterns).requireStatusChecks =
            m.requireStatusChecks + (if bp.requiresStatusChecks then 1 else 0) ∧
        (processRepository m repo includePatterns excludePatterns).requireSignedCommits =
            m.requireSignedCommits + (if bp.requiresCommitSignatures then 1 else 0) ∧
        (processRepository m repo includePatterns excludePatterns).enforceAdmins =
            m.enforceAdmins + (if bp.isAdminEnforced then 1 else 0))) := by
  exact ⟨fun h => processRepository_excluded m repo includePatterns excludePatterns h,
    fun h => processRepository_deltas m repo includePatterns excludePatterns h⟩

/-- Closed instantiation of processRepository_spec: one accepted
repository with a ruleset whose approving-reviews flag is set bumps the
included count and both derived counters. -/
theorem processRepository_spec_witness :
    (processRepository {} (Repository.mk "app" "acme" "PUBLIC"
        (DefaultBranchRef.mk "main"
          (some (BranchProtectionRule.mk true 1 false false true false true)))
        true) ["*"] []).totalRepos = 0 + 1 :=
  ((processRepository_spec {} (Repository.mk "app" "acme" "PUBLIC"
      (DefaultBranchRef.mk "main"
        (some (BranchProtectionRule.mk true 1 false false true false true)))
      true) ["*"] []).2 (by decide)).2.1

/-- C3: securityFeaturesCoverage is the single-truncation formula — 0
for an empty scope, otherwise the floor of the summed feature counters
times 100 over includedCount * 5 — and it differs from the average of
the five individually truncated per-feature percentages on some state,
so the two computations are not the same function. -/
theorem securityFeaturesCoverage_spec :
    (∀ m : MetricsAggregator,
      securityFeaturesCoverage m =
        if m.totalRepos = 0 then 0
        else
          Int.fdiv
            (((m.vulnerabilityAlertsEnabled : Int) + (m.codeScanningEnabled : Int) +
                (m.secretScanningEnabled : Int) + (m.secretScanningPushProtection : Int) +
                (m.dependabotSecurityUpdatesEnabled : Int)) * 100)
            ((m.totalRepos : Int) * 5)) ∧
    (∃ m : MetricsAggregator,
      securityFeaturesCoverage m ≠ avgOfTruncatedFeaturePercents m) := by
  constructor
  · intro m
    by_cases h : m.totalRepos = 0
    · simp [securityFeaturesCoverage, h]
    · rw [securityFeaturesCoverage, if_neg h, if_neg h, MaxPercentage,
        NumSecurityFeatures]
      rw [Int.tdiv_eq_ediv (by positivity) (by positivity),
        Int.fdiv_eq_ediv _ (by positivity)]
  · exact ⟨MetricsAggregator.mk 3 0 [] 0 0 0 0 0 0 0 0 1 2 0 0 0, by decide⟩

/-- The record equation for countSecuritySettings: each settings-derived
counter gains one exactly when its boolean is set, and no other field
changes. -/
theorem countSecuritySettings_eq (m : MetricsAggregator)
    (settings : SecuritySettings) :
    countSecuritySettings m settings =
      { m with
        codeScanningEnabled :=
          m.codeScanningEnabled + (if settings.codeScanningEnabled then 1 else 0)
        secretScanningEnabled :=
          m.secretScanningEnabled + (if settings.secretScanning then 1 else 0)
        secretScanningPushProtection :=
          m.secretScanningPushProtection +
            (if settings.secretScanningPushProtection then 1 else 0)
        dependabotSecurityUpdatesEnabled :=
          m.dependabotSecurityUpdatesEnabled +
            (if settings.dependabotSecurityUpdates then 1 else 0) } := by
  obtain ⟨s1, s2, s3, s4⟩ := settings
  cases s1 <;> cases s2 <;> cases s3 <;> cases s4 <;> simp [countSecuritySettings]

theorem processRepository_inv (m : MetricsAggregator) (repo : Repository)
    (inc exc : List String) (h : PhaseTwoInv m) :
    PhaseTwoInv (processRepository m repo inc exc) ∧
    (processRepository m repo inc exc).totalRepos +
        (processRepository m repo inc exc).excludedRepos =
      m.totalRepos + m.excludedRepos + 1 := by
  obtain ⟨i1, i2, i3, i4, i5, i6, i7, i8, i9, i10, i11, i12, i13, i14⟩ := h
  by_cases hinc : ShouldIncludeRepo repo.name inc exc = true
  · obtain ⟨e1, e2, e3, e4, e5, e6, e7, e8, hnone, hsome⟩ :=
      processRepository_deltas m repo inc exc hinc
    have hlen : (processRepository m repo inc exc).repos.length =
        m.repos.length + 1 := by
      rw [e3]
      simp
    have hv4 : (if repo.hasVulnerabilityAlertsEnabled then 1 else 0) ≤ 1 := by
      split_ifs <;> simp
    rcases hbp : repo.defaultBranchRef.branchProtectionRule with _ | bp
    · obtain ⟨b1, b2, b3, b4, b5, b6, b7, b8⟩ := hnone hbp
      unfold PhaseTwoInv
      refine ⟨⟨?_, ?_, ?_, ?_, ?_, ?_, ?_, ?_, ?_, ?_, ?_, ?_, ?_, ?_⟩, ?_⟩ <;> omega
    · obtain ⟨b1, b2, b3, b4, b5, b6, b7, b8⟩ := hsome bp hbp
      have q1 : (if bp.requiresApprovingReviews then 1 else 0) ≤ 1 := by
        split_ifs <;> simp
      have q2 : (if bp.dismissesStaleReviews then 1 else 0) ≤ 1 := by
        split_ifs <;> simp
      have q3 : (if bp.requiresCodeOwnerReviews then 1 else 0) ≤ 1 := by
        split_ifs <;> simp
      have q4 : (if bp.requiresStatusChecks then 1 else 0) ≤ 1 := by
        split_ifs <;> simp
      have q5 : (if bp.requiresCommitSignatures then 1 else 0) ≤ 1 := by
        split_ifs <;> simp
      have q6 : (if bp.isAdminEnforced then 1 else 0) ≤ 1 := by
        split_ifs <;> simp
      unfold PhaseTwoInv
      refine ⟨⟨?_, ?_, ?_, ?_, ?_, ?_, ?_, ?_, ?_, ?_, ?_, ?_, ?_, ?_⟩, ?_⟩ <;> omega
  · have hfalse : ShouldIncludeRepo repo.name inc exc = false := by
      simpa using hinc
    rw [processRepository_excluded m repo inc exc hfalse]
    unfold PhaseTwoInv
    dsimp only
    refine ⟨⟨?_, ?_, ?_, ?_, ?_, ?_, ?_, ?_, ?_, ?_, ?_, ?_, ?_, ?_⟩, ?_⟩ <;> omega

theorem foldl_processRepository_inv (repos : List Repository)
    (m : MetricsAggregator) (inc exc : List String) (h : PhaseTwoInv m) :
    PhaseTwoInv (repos.foldl (fun acc r => processRepository acc r inc exc) m) ∧
    (repos.foldl (fun acc r => processRepository acc r inc exc) m).totalRepos +
        (repos.foldl (fun acc r => processRepository acc r inc exc) m).excludedRepos =
      m.totalRepos + m.excludedRepos + repos.length := by
  induction repos generalizing m with
  | nil => exact ⟨h, by simp⟩
  | cons r rs ih =>
    obtain ⟨h1, h2⟩ := processRepository_inv m r inc exc h
    obtain ⟨ih1, ih2⟩ := ih (processRepository m r inc exc) h1
    refine ⟨ih1, ?_⟩
    simp only [List.foldl_cons, List.length_cons] at ih2 ⊢
    omega

theorem processPages_inv (pages : List (List Repository))
    (inc exc : List String) :
    PhaseTwoInv (processPages pages inc exc) ∧
    (processPages pages inc exc).totalRepos +
        (processPages pages inc exc).excludedRepos =
      (pages.map List.length).sum := by
  suffices hgen : ∀ (m : MetricsAggregator), PhaseTwoInv m →
      PhaseTwoInv (pages.foldl
        (fun acc page => page.foldl (fun a r => processRepository a r inc exc) acc) m) ∧
      (pages.foldl
          (fun acc page => page.foldl (fun a r => processRepository a r inc exc) acc)
          m).totalRepos +
        (pages.foldl
          (fun acc page => page.foldl (fun a r => processRepository a r inc exc) acc)
          m).excludedRepos =
      m.totalRepos + m.excludedRepos + (pages.map List.length).sum by
    have h0 : PhaseTwoInv ({} : MetricsAggregator) := by
      unfold PhaseTwoInv
      simp
    simpa [processPages] using hgen {} h0
  induction pages with
  | nil => intro m h; exact ⟨h, by simp⟩
  | cons page rest ih =>
    intro m h
    obtain ⟨h1, h2⟩ := foldl_processRepository_inv page m inc exc h
    obtain ⟨ih1, ih2⟩ := ih _ h1
    refine ⟨ih1, ?_⟩
    simp only [List.foldl_cons, List.map_cons, List.sum_cons] at ih2 ⊢
    omega

theorem countSecuritySettings_le (m : MetricsAggregator)
    (settings : SecuritySettings) :
    (countSecuritySettings m settings).totalRepos = m.totalRepos ∧
    (countSecuritySettings m settings).excludedRepos = m.excludedRepos ∧
    (countSecuritySettings m settings).repos = m.repos ∧
    (countSecuritySettings m settings).branchProtectionEnabled =
      m.branchProtectionEnabled ∧
    (countSecuritySettings m settings).requirePullRequest = m.requirePullRequest ∧
    (countSecuritySettings m settings).requireApprovingReviews =
      m.requireApprovingReviews ∧
    (countSecuritySettings m settings).dismissStaleReviews = m.dismissStaleReviews ∧
    (countSecuritySettings m settings).requireCodeOwnerReviews =
      m.requireCodeOwnerReviews ∧
    (countSecuritySettings m settings).requireStatusChecks = m.requireStatusChecks ∧
    (countSecuritySettings m settings).requireSignedCommits =
      m.requireSignedCommits ∧
    (countSecuritySettings m settings).enforceAdmins = m.enforceAdmins ∧
    (countSecuritySettings m settings).vulnerabilityAlertsEnabled =
      m.vulnerabilityAlertsEnabled ∧
    (m.codeScanningEnabled ≤ (countSecuritySettings m settings).codeScanningEnabled ∧
      (countSecuritySettings m settings).codeScanningEnabled ≤
        m.codeScanningEnabled + 1) ∧
    (m.secretScanningEnabled ≤ (countSecuritySettings m settings).secretScanningEnabled ∧
      (countSecuritySettings m settings).secretScanningEnabled ≤
        m.secretScanningEnabled + 1) ∧
    (m.secretScanningPushProtection ≤
        (countSecuritySettings m settings).secretScanningPushProtection ∧
      (countSecuritySettings m settings).secretScanningPushProtection ≤
        m.secretScanningPushProtection + 1) ∧
    (m.dependabotSecurityUpdatesEnabled ≤
        (countSecuritySettings m settings).dependabotSecurityUpdatesEnabled ∧
      (countSecuritySettings m settings).dependabotSecurityUpdatesEnabled ≤
        m.dependabotSecurityUpdatesEnabled + 1) := by
  obtain ⟨s1, s2, s3, s4⟩ := settings
  cases s1 <;> cases s2 <;> cases s3 <;> cases s4 <;>
    simp [countSecuritySettings]

theorem foldl_countSecuritySettings_bound (ss : List SecuritySettings)
    (m : MetricsAggregator) :
    (ss.foldl countSecuritySettings m).totalRepos = m.totalRepos ∧
    (ss.foldl countSecuritySettings m).excludedRepos = m.excludedRepos ∧
    (ss.foldl countSecuritySettings m).repos = m.repos ∧
    (ss.foldl countSecuritySettings m).branchProtectionEnabled =
      m.branchProtectionEnabled ∧
    (ss.foldl countSecuritySettings m).requirePullRequest = m.requirePullRequest ∧
    (ss.foldl countSecuritySettings m).requireApprovingReviews =
      m.requireApprovingReviews ∧
    (ss.foldl countSecuritySettings m).dismissStaleReviews = m.dismissStaleReviews ∧
    (ss.foldl countSecuritySettings m).requireCodeOwnerReviews =
      m.requireCodeOwnerReviews ∧
    (ss.foldl countSecuritySettings m).requireStatusChecks = m.requireStatusChecks ∧
    (ss.foldl countSecuritySettings m).requireSignedCommits =
      m.requireSignedCommits ∧
    (ss.foldl countSecuritySettings m).enforceAdmins = m.enforceAdmins ∧
    (ss.foldl countSecuritySettings m).vulnerabilityAlertsEnabled =
      m.vulnerabilityAlertsEnabled ∧
    (ss.foldl countSecuritySettings m).codeScanningEnabled ≤
      m.codeScanningEnabled + ss.length ∧
    (ss.foldl countSecuritySettings m).secretScanningEnabled ≤
      m.secretScanningEnabled + ss.length ∧
    (ss.foldl countSecuritySettings m).secretScanningPushProtection ≤
      m.secretScanningPushProtection + ss.length ∧
    (ss.foldl countSecuritySettings m).dependabotSecurityUpdatesEnabled ≤
      m.dependabotSecurityUpdatesEnabled + ss.length := by
  induction ss generalizing m with
  | nil => simp
  | cons s rest ih =>
    obtain ⟨c1, c2, c3, c4, c5, c6, c7, c8, c9, c10, c11, c12, c13, c14, c15, c16⟩ :=
      countSecuritySettings_le m s
    obtain ⟨g1, g2, g3, g4, g5, g6, g7, g8, g9, g10, g11, g12, g13, g14, g15, g16⟩ :=
      ih (countSecuritySettings m s)
    simp only [List.foldl_cons, List.length_cons]
    exact ⟨by omega, by omega, by rw [g3, c3], by omega, by omega, by omega,
      by omega, by omega, by omega, by omega, by omega, by omega, by omega,
      by omega, by omega, by omega⟩

/-- C2: in every state reached by the orchestrated sequence — every
repository of every page folded through processRepository starting from
the zero aggregator, then countSecuritySettings applied at most once per
accepted repository — the included plus excluded counts equal the number
of repositories observed, and each of the twelve feature counters is at
most the included count. -/
theorem aggregatorState_invariant (pages : List (List Repository))
    (includePatterns excludePatterns : List String)
    (ss : List SecuritySettings) (m : MetricsAggregator)
    (hm : m = ss.foldl countSecuritySettings
      (processPages pages includePatterns excludePatterns))
    (hss : ss.length ≤
      (processPages pages includePatterns excludePatterns).repos.length) :
    m.totalRepos + m.excludedRepos = (pages.map List.length).sum ∧
    m.branchProtectionEnabled ≤ m.totalRepos ∧
    m.requirePullRequest ≤ m.totalRepos ∧
    m.requireApprovingReviews ≤ m.totalRepos ∧
    m.dismissStaleReviews ≤ m.totalRepos ∧
    m.requireCodeOwnerReviews ≤ m.totalRepos ∧
    m.requireStatusChecks ≤ m.totalRepos ∧
    m.requireSignedCommits ≤ m.totalRepos ∧
    m.enforceAdmins ≤ m.totalRepos ∧
    m.vulnerabilityAlertsEnabled ≤ m.totalRepos ∧
    m.codeScanningEnabled ≤ m.totalRepos ∧
    m.secretScanningEnabled ≤ m.totalRepos ∧
    m.secretScanningPushProtection ≤ m.totalRepos ∧
    m.dependabotSecurityUpdatesEnabled ≤ m.totalRepos := by
  subst hm
  obtain ⟨hinv, hobs⟩ :=
    processPages_inv pages includePatterns excludePatterns
  obtain ⟨f1, f2, f3, f4, f5, f6, f7, f8, f9, f10, f11, f12, f13, f14, f15, f16⟩ :=
    foldl_countSecuritySettings_bound ss
      (processPages pages includePatterns excludePatterns)
  obtain ⟨i1, i2, i3, i4, i5, i6, i7, i8, i9, i10, i11, i12, i13, i14⟩ := hinv
  refine ⟨?_, ?_, ?_, ?_, ?_, ?_, ?_, ?_, ?_, ?_, ?_, ?_, ?_, ?_⟩ <;> omega

/-- Closed instantiation of aggregatorState_invariant: one observed and
accepted repository, one settings fold. -/
theorem aggregatorState_invariant_witness :
    (List.foldl countSecuritySettings
        (processPages [[Repository.mk "app" "acme" "PUBLIC"
          (DefaultBranchRef.mk "main" none) true]] ["*"] [])
        [SecuritySettings.mk true true true true]).totalRepos +
      (List.foldl countSecuritySettings
        (processPages [[Repository.mk "app" "acme" "PUBLIC"
          (DefaultBranchRef.mk "main" none) true]] ["*"] [])
        [SecuritySettings.mk true true true true]).excludedRepos =
      (([[Repository.mk "app" "acme" "PUBLIC"
          (DefaultBranchRef.mk "main" none) true]]).map List.length).sum :=
  (aggregatorState_invariant
    [[Repository.mk "app" "acme" "PUBLIC" (DefaultBranchRef.mk "main" none) true]]
    ["*"] [] [SecuritySettings.mk true true true true] _ rfl (by decide)).1

theorem countSecuritySettings_allFalse (m : MetricsAggregator) :
    countSecuritySettings m (SecuritySettings.mk false false false false) = m := rfl

theorem foldl_settings_fields (fetch : RepoInfo → Option SecuritySettings)
    (rs : List RepoInfo) (acc : MetricsAggregator) :
    ((rs.foldl
        (fun acc repo =>
          match fetch repo with
          | none => acc
          | some settings => countSecuritySettings acc settings)
        acc).totalRepos = acc.totalRepos ∧
      (rs.foldl
        (fun acc repo =>
          match fetch repo with
          | none => acc
          | some settings => countSecuritySettings acc settings)
        acc).requirePullRequest = acc.requirePullRequest ∧
      (rs.foldl
        (fun acc repo =>
          match fetch repo with
          | none => acc
          | some settings => countSecuritySettings acc settings)
        acc).requireApprovingReviews = acc.requireApprovingReviews) := by
  induction rs generalizing acc with
  | nil => exact ⟨rfl, rfl, rfl⟩
  | cons r rs ih =>
    rcases hr : fetch r with _ | s
    · simpa only [List.foldl_cons, hr] using ih acc
    · obtain ⟨c1, c2, c3, c4, c5, c6, c7, c8, c9, c10, c11, c12, c13, c14, c15, c16⟩ :=
        countSecuritySettings_le acc s
      obtain ⟨g1, g2, g3⟩ := ih (countSecuritySettings acc s)
      simp only [List.foldl_cons, hr]
      exact ⟨by omega, by omega, by omega⟩

theorem fetchSecuritySettings_fields (fetch : RepoInfo → Option SecuritySettings)
    (m : MetricsAggregator) :
    (fetchSecuritySettings fetch m).totalRepos = m.totalRepos ∧
    (fetchSecuritySettings fetch m).requirePullRequest = m.requirePullRequest ∧
    (fetchSecuritySettings fetch m).requireApprovingReviews =
      m.requireApprovingReviews := by
  unfold fetchSecuritySettings
  exact foldl_settings_fields fetch m.repos m

theorem foldl_settings_congr (f g : RepoInfo → Option SecuritySettings)
    (hfg : ∀ r, f r = g r ∨
      (f r = none ∧ g r = some (SecuritySettings.mk false false false false)))
    (rs : List RepoInfo) (acc : MetricsAggregator) :
    rs.foldl
        (fun acc repo =>
          match f repo with
          | none => acc
          | some settings => countSecuritySettings acc settings)
        acc =
      rs.foldl
        (fun acc repo =>
          match g repo with
          | none => acc
          | some settings => countSecuritySettings acc settings)
        acc := by
  induction rs generalizing acc with
  | nil => rfl
  | cons r rs ih =>
    simp only [List.foldl_cons]
    rcases hfg r with heq | ⟨hf, hg⟩
    · rw [heq]
      exact ih _
    · rw [hf, hg]
      simp only [countSecuritySettings_allFalse]
      exact ih acc

theorem fetchSecuritySettings_congr (f g : RepoInfo → Option SecuritySettings)
    (hfg : ∀ r, f r = g r ∨
      (f r = none ∧ g r = some (SecuritySettings.mk false false false false)))
    (m : MetricsAggregator) :
    fetchSecuritySettings f m = fetchSecuritySettings g m := by
  unfold fetchSecuritySettings
  exact foldl_settings_congr f g hfg m.repos m

/-- C5: with a nonempty organization, Collect returns no report exactly
when the org-security fetch or the repository-enumeration fetch fails;
replacing a settings oracle that fails on some repositories by one that
returns all-disabled settings there changes nothing in the outcome, so
an individual phase-three failure is never surfaced and contributes
zero to the settings-derived counters; and the phase-three pass never
changes the included count. -/
theorem Collect_error_spec (org : String) (inc exc : List String)
    (fo : Option OrgSecurity) (fr : Option (List (List Repository)))
    (f g : RepoInfo → Option SecuritySettings)
    (horg : org ≠ "")
    (hfg : ∀ r, f r = g r ∨
      (f r = none ∧ g r = some (SecuritySettings.mk false false false false))) :
    (Collect org inc exc fo fr f = none ↔ fo = none ∨ fr = none) ∧
    Collect org inc exc fo fr f = Collect org inc exc fo fr g ∧
    (∀ m : MetricsAggregator,
      (fetchSecuritySettings f m).totalRepos = m.totalRepos) := by
  refine ⟨?_, ?_, fun m => (fetchSecuritySettings_fields f m).1⟩
  · cases fo <;> cases fr <;> simp [Collect, horg]
  · cases fo with
    | none => rfl
    | some os =>
      cases fr with
      | none => rfl
      | some pages =>
        simp only [Collect, if_neg horg]
        rw [fetchSecuritySettings_congr f g hfg]

/-- Closed instantiation of Collect_error_spec: one page of one
repository, a settings oracle that always fails against one that always
returns all-disabled settings. -/
theorem Collect_error_spec_witness :
    (Collect "acme" ["*"] [] (some (OrgSecurity.mk (some true)))
        (some [[Repository.mk "app" "acme" "PUBLIC"
          (DefaultBranchRef.mk "main" none) true]])
        (fun _ => none) = none ↔
      (some (OrgSecurity.mk (some true)) = none ∨
        (some [[Repository.mk "app" "acme" "PUBLIC"
          (DefaultBranchRef.mk "main" none) true]]) = none)) ∧
    Collect "acme" ["*"] [] (some (OrgSecurity.mk (some true)))
        (some [[Repository.mk "app" "acme" "PUBLIC"
          (DefaultBranchRef.mk "main" none) true]])
        (fun _ => none) =
      Collect "acme" ["*"] [] (some (OrgSecurity.mk (some true)))
        (some [[Repository.mk "app" "acme" "PUBLIC"
          (DefaultBranchRef.mk "main" none) true]])
        (fun _ => some (SecuritySettings.mk false false false false)) ∧
    (∀ m : MetricsAggregator,
      (fetchSecuritySettings (fun _ => none) m).totalRepos = m.totalRepos) :=
  Collect_error_spec "acme" ["*"] [] (some (OrgSecurity.mk (some true)))
    (some [[Repository.mk "app" "acme" "PUBLIC"
      (DefaultBranchRef.mk "main" none) true]])
    (fun _ => none) (fun _ => some (SecuritySettings.mk false false false false))
    (by decide) (fun r => Or.inr ⟨rfl, rfl⟩)

/-- C8: when the first two fetches succeed, Collect always produces a
report whose access-control field is exactly the fetched optional
two-factor value — none stays none, never coerced to false and never an
error — and every other section of the report does not depend on that
value. -/
theorem twoFactor_propagation (org : String) (inc exc : List String)
    (pages : List (List Repository)) (fs : RepoInfo → Option SecuritySettings)
    (tf : Option Bool) (horg : org ≠ "") :
    ∃ p : OrgPosture,
      Collect org inc exc (some (OrgSecurity.mk tf)) (some pages) fs = some p ∧
      p.accessControl.twoFactorRequired = tf ∧
      ∀ tf' : Option Bool, ∃ q : OrgPosture,
        Collect org inc exc (some (OrgSecurity.mk tf')) (some pages) fs = some q ∧
        q.scope = p.scope ∧ q.posture = p.posture ∧
        q.branchProtectionRules = p.branchProtectionRules ∧
        q.securityFeatures = p.securityFeatures ∧
        q.schemaVersion = p.schemaVersion ∧ q.organization = p.organization := by
  exact ⟨populatePosture org (OrgSecurity.mk tf)
      (fetchSecuritySettings fs
        (processPages pages (if inc = [] then [DefaultIncludePattern] else inc) exc))
      (if inc = [] then [DefaultIncludePattern] else inc) exc,
    by simp only [Collect, if_neg horg], rfl, fun tf' =>
    ⟨populatePosture org (OrgSecurity.mk tf')
      (fetchSecuritySettings fs
        (processPages pages (if inc = [] then [DefaultIncludePattern] else inc) exc))
      (if inc = [] then [DefaultIncludePattern] else inc) exc,
      by simp only [Collect, if_neg horg], rfl, rfl, rfl, rfl, rfl, rfl⟩⟩

/-- Closed instantiation of twoFactor_propagation: an unobservable
two-factor field propagates as none through a successful collection. -/
theorem twoFactor_propagation_witness :
    ∃ p : OrgPosture,
      Collect "acme" ["*"] []
          (some (OrgSecurity.mk none))
          (some [[Repository.mk "app" "acme" "PUBLIC"
            (DefaultBranchRef.mk "main" none) true]])
          (fun _ => none) = some p ∧
      p.accessControl.twoFactorRequired = none ∧
      ∀ tf' : Option Bool, ∃ q : OrgPosture,
        Collect "acme" ["*"] []
            (some (OrgSecurity.mk tf'))
            (some [[Repository.mk "app" "acme" "PUBLIC"
              (DefaultBranchRef.mk "main" none) true]])
            (fun _ => none) = some q ∧
        q.scope = p.scope ∧ q.posture = p.posture ∧
        q.branchProtectionRules = p.branchProtectionRules ∧
        q.securityFeatures = p.securityFeatures ∧
        q.schemaVersion = p.schemaVersion ∧ q.organization = p.organization :=
  twoFactor_propagation "acme" ["*"] []
    [[Repository.mk "app" "acme" "PUBLIC" (DefaultBranchRef.mk "main" none) true]]
    (fun _ => none) none (by decide)

theorem processRepository_prEq (m : MetricsAggregator) (repo : Repository)
    (inc exc : List String)
    (h : m.requirePullRequest = m.requireApprovingReviews) :
    (processRepository m repo inc exc).requirePullRequest =
      (processRepository m repo inc exc).requireApprovingReviews := by
  by_cases hinc : ShouldIncludeRepo repo.name inc exc = true
  · obtain ⟨e1, e2, e3, e4, e5, e6, e7, e8, hnone, hsome⟩ :=
      processRepository_deltas m repo inc exc hinc
    rcases hbp : repo.defaultBranchRef.branchProtectionRule with _ | bp
    · obtain ⟨b1, b2, b3, b4, b5, b6, b7, b8⟩ := hnone hbp
      omega
    · obtain ⟨b1, b2, b3, b4, b5, b6, b7, b8⟩ := hsome bp hbp
      omega
  · rw [processRepository_excluded m repo inc exc (by simpa using hinc)]
    exact h

theorem foldl_processRepository_prEq (repos : List Repository)
    (m : MetricsAggregator) (inc exc : List String)
    (h : m.requirePullRequest = m.requireApprovingReviews) :
    (repos.foldl (fun acc r => processRepository acc r inc exc) m).requirePullRequest =
      (repos.foldl (fun acc r => processRepository acc r inc exc) m).requireApprovingReviews := by
  induction repos generalizing m with
  | nil => exact h
  | cons r rs ih =>
    simp only [List.foldl_cons]
    exact ih _ (processRepository_prEq m r inc exc h)

theorem processPages_prEq (pages : List (List Repository))
    (inc exc : List String) :
    (processPages pages inc exc).requirePullRequest =
      (processPages pages inc exc).requireApprovingReviews := by
  suffices hgen : ∀ m : MetricsAggregator,
      m.requirePullRequest = m.requireApprovingReviews →
      (pages.foldl
          (fun acc page => page.foldl (fun a r => processRepository a r inc exc) acc)
          m).requirePullRequest =
        (pages.foldl
          (fun acc page => page.foldl (fun a r => processRepository a r inc exc) acc)
          m).requireApprovingReviews by
    exact hgen {} rfl
  induction pages with
  | nil => intro m h; exact h
  | cons page rest ih =>
    intro m h
    simp only [List.foldl_cons]
    exact ih _ (foldl_processRepository_prEq page m inc exc h)

/-- C10: every report Collect produces has identical
pull_request_required and approving_reviews percentages, because both
counters are incremented together from the required-approving-reviews
flag. -/
theorem pullRequestRequired_eq_approvingReviews (org : String)
    (inc exc : List String) (fo : Option OrgSecurity)
    (fr : Option (List (List Repository)))
    (fs : RepoInfo → Option SecuritySettings) (p : OrgPosture)
    (hp : Collect org inc exc fo fr fs = some p) :
    p.branchProtectionRules.pullRequestRequired =
      p.branchProtectionRules.approvingReviews := by
  by_cases horg : org = ""
  · simp [Collect, horg] at hp
  · cases fo with
    | none => simp [Collect, horg] at hp
    | some os =>
      cases fr with
      | none => simp [Collect, horg] at hp
      | some pages =>
        simp only [Collect, if_neg horg, Option.some_inj] at hp
        subst hp
        have h2 := processPages_prEq pages
          (if inc = [] then [DefaultIncludePattern] else inc) exc
        obtain ⟨f1, f2, f3⟩ := fetchSecuritySettings_fields fs
          (processPages pages (if inc = [] then [DefaultIncludePattern] else inc) exc)
        show percent _ _ = percent _ _
        rw [f2, f3, h2]

/-- Closed instantiation of pullRequestRequired_eq_approvingReviews on a
one-repository successful collection. -/
theorem pullRequestRequired_eq_approvingReviews_witness :
    (populatePosture "acme" (OrgSecurity.mk none)
        (fetchSecuritySettings (fun _ => none)
          (processPages [[Repository.mk "app" "acme" "PUBLIC"
            (DefaultBranchRef.mk "main" none) true]] ["*"] []))
        ["*"] []).branchProtectionRules.pullRequestRequired =
      (populatePosture "acme" (OrgSecurity.mk none)
        (fetchSecuritySettings (fun _ => none)
          (processPages [[Repository.mk "app" "acme" "PUBLIC"
            (DefaultBranchRef.mk "main" none) true]] ["*"] []))
        ["*"] []).branchProtectionRules.approvingReviews :=
  pullRequestRequired_eq_approvingReviews "acme" ["*"] []
    (some (OrgSecurity.mk none))
    (some [[Repository.mk "app" "acme" "PUBLIC"
      (DefaultBranchRef.mk "main" none) true]])
    (fun _ => none) _ rfl

end EpackCollector
